import Mathlib

/-!
Shallow embedding of `mods_manager.py` (Factorio-mod-manager): the release
resolver (`get_mod_infos`), the file/manifest state operations
(`remove_file`, `write_mods_list`, `download_mod`), and the three outer
operations (`update_mods`, `install_mod`, `remove_mod`) plus the
configuration loader (`load_config`) and the main driver.

Python exceptions and `exit(...)` calls are modelled with `Except`, the
error carrying the process state at the moment the run aborts.  The file
system under the mods folder is an association list from file name to file
content (a byte list); SHA-1 is an uninterpreted parameter
`hash : List Nat → String`, with the 65536-byte streaming read of
`get_file_sha1` modelled explicitly.
-/

namespace ModsManager

/-- Two-component version (major.minor) as produced by `packaging.parse` on
the strings this tool handles: `find_version` captures only `major.minor`
from the binary's output, and mod `info.json` `factorio_version` fields are
two-component by mod-portal rule. -/
structure FVersion where
  major : Nat
  minor : Nat
deriving DecidableEq, Repr

/-- Comparison of two-component versions, as `packaging.Version.__le__`
compares release tuples: lexicographic on (major, minor). -/
def FVersion.le (a b : FVersion) : Bool :=
  Nat.blt a.major b.major || (a.major == b.major && Nat.ble a.minor b.minor)

/-- One release record from the mod portal's `releases` array, with
`released_at` abstracted to a totally ordered timestamp. -/
structure Release where
  file_name : String
  download_url : String
  sha1 : String
  version : String
  factorio_version : FVersion
  released_at : Nat
deriving DecidableEq, Repr

/-- One entry of `mod-list.json`: `{name, enabled}`. -/
structure ModEntry where
  name : String
  enabled : Bool
deriving DecidableEq, Repr

/-- Body of an HTTP-200 portal response; the `releases` key may be absent
(`none`), which is distinct from an empty `releases` array. -/
structure ApiBody where
  releases : Option (List Release)
deriving Repr

/-- Outcome of `requests.get` on the mod-info URL: a non-200 status, or a
JSON body. -/
inductive FetchResult where
  | httpError
  | ok (body : ApiBody)

/-- Python-level abnormal terminations of the script: uncaught exceptions
(`KeyError`, `TypeError`, `IndexError`) and explicit `exit(1)` /
`parser.error` (which exits with status 2). -/
inductive PyErr where
  | keyError
  | typeError
  | indexError
  | exit1
  | exit2
deriving DecidableEq, Repr

/-- The dictionary built by `get_mod_infos`. -/
structure ModInfos where
  name : String
  enabled : Bool
  releases : List Release
  same_version_releases : List Release
deriving DecidableEq, Repr

/-- The relevant part of the `glob` run configuration, as it stands after
`load_config`. -/
structure Cfg where
  dry_run : Bool
  should_downgrade : Bool
  factorio_version : FVersion
  should_reload : Bool
deriving Repr

/-- The ordering used by `sorted(..., key=released_at, reverse=True)`:
`a` comes before `b` when `a`'s timestamp is at least `b`'s. -/
def relDesc : Release → Release → Prop := fun a b => b.released_at ≤ a.released_at

instance : DecidableRel relDesc := fun a b => Nat.decLe b.released_at a.released_at

instance : IsTotal Release relDesc :=
  ⟨fun a b => Nat.le_total b.released_at a.released_at⟩

instance : IsTrans Release relDesc :=
  ⟨fun _ _ _ h1 h2 => Nat.le_trans h2 h1⟩

/-- Python's `sorted(releases, key=released_at, reverse=True)`: a stable
sort into non-increasing timestamp order.  Insertion sort with `relDesc` is
stable for this total preorder and therefore computes the same list. -/
def sortReleasesDesc (rels : List Release) : List Release :=
  rels.insertionSort relDesc

/-- The candidate filter of `get_mod_infos`: exact `==` on the parsed
versions without downgrade, `<=` with downgrade. -/
def releaseFilter (cfg : Cfg) (r : Release) : Bool :=
  if cfg.should_downgrade then FVersion.le r.factorio_version cfg.factorio_version
  else r.factorio_version == cfg.factorio_version

/-- Embedding of `get_mod_infos` (mods_manager.py lines 156-183).  A non-200
status prints a warning and returns `None`.  A body without a `releases`
key raises `KeyError`: the guard `'releases' not in r.json() and
len(r.json()['releases']) == 0` evaluates `r.json()['releases']` exactly
when the key is missing, and is short-circuited to `False` (no skip) when
the key is present, even on an empty array. -/
def get_mod_infos (cfg : Cfg) (fetch : String → FetchResult) (mod : ModEntry) :
    Except PyErr (Option ModInfos) :=
  match fetch mod.name with
  | .httpError => .ok none
  | .ok body =>
    match body.releases with
    | none => .error .keyError
    | some rels =>
      let sorted_releases := sortReleasesDesc rels
      let filtered_releases := sorted_releases.filter (releaseFilter cfg)
      .ok (some { name := mod.name, enabled := mod.enabled,
                  releases := sorted_releases,
                  same_version_releases := filtered_releases })

/-- Contents of the mods folder: file name to file content (bytes). -/
abbrev FileSys := List (String × List Nat)

def fsLookup (fs : FileSys) (name : String) : Option (List Nat) :=
  (fs.find? (fun p => p.1 == name)).map (fun p => p.2)

def fsErase (fs : FileSys) (name : String) : FileSys :=
  fs.filter (fun p => p.1 != name)

def fsWrite (fs : FileSys) (name : String) (content : List Nat) : FileSys :=
  (name, content) :: fsErase fs name

/-- Process state: mods-folder contents, the persisted `mod-list.json`
content, the `has_to_reload` flag, and whether `systemctl restart` was
invoked. -/
structure St where
  files : FileSys
  manifest : List ModEntry
  has_to_reload : Bool
  restarted : Bool
deriving DecidableEq, Repr

/-- The 65536-byte blocks successively returned by `afile.read(BLOCKSIZE)`
in `get_file_sha1`. -/
def readBlocks (bs : List Nat) : List (List Nat) :=
  if h : bs = [] then []
  else bs.take 65536 :: readBlocks (bs.drop 65536)
termination_by bs.length
decreasing_by
  simp only [List.length_drop]
  exact Nat.sub_lt (List.length_pos.mpr h) (by decide)

/-- Embedding of `get_file_sha1` (lines 35-43): feed the file to the hasher
in 65536-byte blocks until a read returns empty; the digest is the hash of
every byte fed, in order. -/
def get_file_sha1 (hash : List Nat → String) (content : List Nat) : String :=
  hash ((readBlocks content).foldl (fun acc b => acc ++ b) [])

/-- Embedding of `check_file_and_sha` (lines 186-192): the path exists and
the published sha1 equals the local file's streamed digest. -/
def check_file_and_sha (hash : List Nat → String) (fs : FileSys)
    (file_path : String) (sha1 : String) : Bool :=
  match fsLookup fs file_path with
  | some content => sha1 == get_file_sha1 hash content
  | none => false

/-- Embedding of `remove_file` (lines 132-141): delete only when the file
exists, and in dry-run only print. -/
def remove_file (cfg : Cfg) (file_path : String) (st : St) : St :=
  match fsLookup st.files file_path with
  | some _ =>
    if cfg.dry_run then st
    else { st with files := fsErase st.files file_path }
  | none => st

/-- Embedding of `read_mods_list` (lines 108-116): `pop(0)` on the parsed
list removes the leading `base` entry and raises `IndexError` on an empty
list. -/
def read_mods_list (remove_base : Bool) (st : St) : Except PyErr (List ModEntry) :=
  if remove_base then
    match st.manifest with
    | [] => .error .indexError
    | _ :: t => .ok t
  else .ok st.manifest

/-- Embedding of `write_mods_list` (lines 119-129): in dry-run only print,
otherwise replace the manifest file's content. -/
def write_mods_list (cfg : Cfg) (mods_list : List ModEntry) (st : St) : St :=
  if cfg.dry_run then st else { st with manifest := mods_list }

/-- Response of the artifact endpoint for a download URL. -/
structure DlResp where
  content_type : String
  content : List Nat
deriving Repr

/-- The two remote collaborators: the metadata fetch and the artifact
download. -/
structure Env where
  fetch : String → FetchResult
  net : String → DlResp

/-- Embedding of `download_mod` (lines 305-334): dry-run returns before any
request; a content type other than `application/zip` prints an error and
calls `exit(1)` before the output file is opened; otherwise the body is
streamed into the file. -/
def download_mod (cfg : Cfg) (env : Env) (file_path download_url : String)
    (st : St) : Except (PyErr × St) St :=
  if cfg.dry_run then .ok st
  else
    let r := env.net download_url
    if r.content_type != "application/zip" then .error (.exit1, st)
    else .ok { st with files := fsWrite st.files file_path r.content }

/-- A `for release in ...: remove_file(...)` loop over a list of releases,
as in `update_mods` (lines 212-215) and `remove_mod` (lines 287-290). -/
def removeAll (cfg : Cfg) (rels : List Release) (st : St) : St :=
  rels.foldl (fun s r => remove_file cfg r.file_name s) st

/-- The superseded-file sweep of `update_mods` (lines 211-215): delete every
known release file whose name differs from the resolved release's name. -/
def deleteSuperseded (cfg : Cfg) (mi : ModInfos) (selected : Release) (st : St) : St :=
  removeAll cfg (mi.releases.filter (fun r => r.file_name != selected.file_name)) st

/-- One iteration of the `update_mods` loop body (lines 200-225).  When
`get_mod_infos` returned `None`, the body subscripts it
(`mod_infos['enabled']` or `mod_infos['same_version_releases']`) and raises
`TypeError`.  Otherwise: skip disabled mods under `--update-enabled-only`,
skip when no compatible release exists, delete superseded files, skip the
download when the local file's sha1 already matches, else download and set
`has_to_reload`. -/
def update_mod_step (cfg : Cfg) (env : Env) (hash : List Nat → String)
    (enabled_only : Bool) (mod : ModEntry) (st : St) : Except (PyErr × St) St :=
  match get_mod_infos cfg env.fetch mod with
  | .error e => .error (e, st)
  | .ok none => .error (.typeError, st)
  | .ok (some mod_infos) =>
    if enabled_only && !mod_infos.enabled then .ok st
    else
      match mod_infos.same_version_releases with
      | [] => .ok st
      | selected :: _ =>
        let st1 := deleteSuperseded cfg mod_infos selected st
        if check_file_and_sha hash st1.files selected.file_name selected.sha1 then
          .ok st1
        else
          match download_mod cfg env selected.file_name selected.download_url st1 with
          | .error e => .error e
          | .ok st2 => .ok { st2 with has_to_reload := true }

def update_mods_loop (cfg : Cfg) (env : Env) (hash : List Nat → String)
    (enabled_only : Bool) : List ModEntry → St → Except (PyErr × St) St
  | [], st => .ok st
  | mod :: rest, st =>
    match update_mod_step cfg env hash enabled_only mod st with
    | .error e => .error e
    | .ok st1 => update_mods_loop cfg env hash enabled_only rest st1

/-- Embedding of `update_mods` (lines 195-225). -/
def update_mods (cfg : Cfg) (env : Env) (hash : List Nat → String)
    (enabled_only : Bool) (st : St) : Except (PyErr × St) St :=
  match read_mods_list true st with
  | .error e => .error (e, st)
  | .ok mods_list => update_mods_loop cfg env hash enabled_only mods_list st

/-- Embedding of `install_mod` (lines 228-269): resolve, append the entry to
`mod-list.json` and write it, then compare sha1 and download only on
mismatch.  No superseded-file deletion happens here. -/
def install_mod (cfg : Cfg) (env : Env) (hash : List Nat → String)
    (mod_name : String) (st : St) : Except (PyErr × St) St :=
  let mod : ModEntry := { name := mod_name, enabled := true }
  match get_mod_infos cfg env.fetch mod with
  | .error e => .error (e, st)
  | .ok none => .ok st
  | .ok (some mod_infos) =>
    match mod_infos.same_version_releases with
    | [] => .ok st
    | selected :: _ =>
      match read_mods_list false st with
      | .error e => .error (e, st)
      | .ok mods_list =>
        let st1 := write_mods_list cfg (mods_list ++ [mod]) st
        if check_file_and_sha hash st1.files selected.file_name selected.sha1 then
          .ok st1
        else
          match download_mod cfg env selected.file_name selected.download_url st1 with
          | .error e => .error e
          | .ok st2 => .ok { st2 with has_to_reload := true }

/-- Embedding of `remove_mod` (lines 272-302): delete the file of every
known release, then rewrite the manifest without any entry of that name. -/
def remove_mod (cfg : Cfg) (env : Env) (mod_name : String) (st : St) :
    Except (PyErr × St) St :=
  let mod : ModEntry := { name := mod_name, enabled := true }
  match get_mod_infos cfg env.fetch mod with
  | .error e => .error (e, st)
  | .ok none => .ok st
  | .ok (some mod_infos) =>
    let st1 := removeAll cfg mod_infos.releases st
    match read_mods_list false st1 with
    | .error e => .error (e, st1)
    | .ok mods_list =>
      let new_mods_list := mods_list.filter (fun m => m.name != mod_name)
      let st2 := write_mods_list cfg new_mods_list st1
      .ok { st2 with has_to_reload := true }

/-- Embedding of `update_state_mods` (lines 337-348). -/
def update_state_mods (cfg : Cfg) (names : List String) (should_enable : Bool)
    (st : St) : Except (PyErr × St) St :=
  match read_mods_list false st with
  | .error e => .error (e, st)
  | .ok mods_list =>
    let new_list := mods_list.map
      (fun m => if names.contains m.name then { m with enabled := should_enable } else m)
    let st1 := write_mods_list cfg new_list st
    .ok { st1 with has_to_reload := true }

/-- Inputs of `load_config` (lines 351-394): the command-line arguments and
the optional `config.json` fallbacks, plus the observable file-system facts
the loader probes.  `none` stands for an absent argument or key; Python
treats an empty string as falsy when choosing between argument and config
fallback. -/
structure ConfigEnv where
  args_should_reload : Bool
  cfg_should_reload : Option Bool
  args_service_name : Option String
  cfg_service_name : Option String
  args_factorio_path : Option String
  cfg_factorio_path : Option String
  mods_folder_path_exists : Bool
  mods_folder_path_isdir : Bool
  mods_list_path_exists : Bool
  mods_list_path_isfile : Bool
  args_username : Option String
  cfg_username : Option String
  args_token : Option String
  cfg_token : Option String
  args_should_update : Bool
  args_mod_name_to_install : Option String
deriving Repr

/-- Python's `args.x or (config['x'] if 'x' in config else "")` for string
settings: a `None` or empty argument falls back to the config value, then
to the empty string. -/
def orElseStr (a b : Option String) : String :=
  match a with
  | some s => if s == "" then b.getD "" else s
  | none => b.getD ""

/-- Python's `args.x if args.x else (config['x'] if 'x' in config else None)`
for the service name. -/
def orElseOpt (a b : Option String) : Option String :=
  match a with
  | some s => if s == "" then b else some s
  | none => b

/-- Embedding of `load_config` (lines 351-394).  `.error .exit2` models
`parser.error` (which raises `SystemExit(2)`), `.ok false` the plain
`return False` paths, `.ok true` success.  Note line 385 tests
`glob['username'] == "" or glob['username'] == ""`: the username is checked
twice and the token never. -/
def load_config (env : ConfigEnv) : Except PyErr Bool :=
  let should_reload := if env.args_should_reload then true
    else env.cfg_should_reload.getD false
  let service_name := orElseOpt env.args_service_name env.cfg_service_name
  if should_reload && service_name == none then .error .exit2
  else
    let factorio_path := orElseOpt env.args_factorio_path env.cfg_factorio_path
    if factorio_path == none then .ok false
    else if !env.mods_folder_path_exists && !env.mods_folder_path_isdir then .ok false
    else if !env.mods_list_path_exists && !env.mods_list_path_isfile then .ok false
    else
      let username := orElseStr env.args_username env.cfg_username
      let _token := orElseStr env.args_token env.cfg_token
      if (env.args_should_update || env.args_mod_name_to_install != none)
          && (username == "" || username == "") then .ok false
      else .ok true

/-- The action-selecting arguments of `main` (lines 421-480). -/
structure Args where
  list_enable_mods : Option (List String)
  list_disable_mods : Option (List String)
  list_mods : Bool
  should_update : Bool
  enabled_only : Bool
  mod_name_to_install : Option String
  remove_mod_name : Option String
deriving Repr

/-- The final block of `main` (lines 466-477): when any mutating operation
ran, a dry run only prints, otherwise the service is restarted exactly when
`should_reload` is set. -/
def reload_block (cfg : Cfg) (st : St) : St :=
  if st.has_to_reload then
    if cfg.dry_run then st
    else if cfg.should_reload then { st with restarted := true }
    else st
  else st

/-- Sequential composition of two script steps: an uncaught exception or
`exit` in the first step ends the run there. -/
def andThen (m : Except (PyErr × St) St) (f : St → Except (PyErr × St) St) :
    Except (PyErr × St) St :=
  match m with
  | .error e => .error e
  | .ok s => f s

/-- The operation sequence of `main` after configuration loading (lines
436-477): enable list, disable list, list-and-exit (`exit(0)` skips the
rest), update, install, remove, reload. -/
def run_actions (cfg : Cfg) (env : Env) (hash : List Nat → String)
    (args : Args) (st : St) : Except (PyErr × St) St :=
  andThen (match args.list_enable_mods with
    | some names => update_state_mods cfg names true st
    | none => .ok st) (fun st1 =>
  andThen (match args.list_disable_mods with
    | some names => update_state_mods cfg names false st1
    | none => .ok st1) (fun st2 =>
  if args.list_mods then
    match read_mods_list true st2 with
    | .error e => .error (e, st2)
    | .ok _ => .ok st2
  else
  andThen (if args.should_update then
      update_mods cfg env hash args.enabled_only st2
    else .ok st2) (fun st3 =>
  andThen (match args.mod_name_to_install with
    | some name => install_mod cfg env hash name st3
    | none => .ok st3) (fun st4 =>
  andThen (match args.remove_mod_name with
    | some name => remove_mod cfg env name st4
    | none => .ok st4) (fun st5 =>
  .ok (reload_block cfg st5))))))

/-- Embedding of `main` (lines 421-480): a failing `load_config` prints and
exits with status 1 (or 2 from `parser.error`) before any action runs. -/
def main_run (cenv : ConfigEnv) (cfg : Cfg) (env : Env) (hash : List Nat → String)
    (args : Args) (st : St) : Except (PyErr × St) St :=
  match load_config cenv with
  | .error e => .error (e, st)
  | .ok false => .error (.exit1, st)
  | .ok true => run_actions cfg env hash args st

/-- The process state at the end of a run, whether it finished normally or
aborted. -/
def resSt : Except (PyErr × St) St → St
  | .ok st => st
  | .error (_, st) => st

/-! ### Lemmas about the release resolver -/

theorem sortReleasesDesc_sorted (rels : List Release) :
    (sortReleasesDesc rels).Sorted relDesc :=
  List.sorted_insertionSort relDesc rels

theorem mem_sortReleasesDesc {r : Release} {rels : List Release} :
    r ∈ sortReleasesDesc rels ↔ r ∈ rels :=
  List.mem_insertionSort relDesc

theorem get_mod_infos_ok_some {cfg : Cfg} {fetch : String → FetchResult}
    {mod : ModEntry} {mi : ModInfos}
    (h : get_mod_infos cfg fetch mod = .ok (some mi)) :
    ∃ rels, fetch mod.name = .ok ⟨some rels⟩ ∧
      mi.releases = sortReleasesDesc rels ∧
      mi.same_version_releases = (sortReleasesDesc rels).filter (releaseFilter cfg) := by
  unfold get_mod_infos at h
  rcases hf : fetch mod.name with _ | body
  · rw [hf] at h
    simp at h
  · rcases body with ⟨_ | rels⟩
    · rw [hf] at h
      simp at h
    · rw [hf] at h
      simp only [Except.ok.injEq, Option.some.injEq] at h
      refine ⟨rels, rfl, ?_, ?_⟩
      · rw [← h]
      · rw [← h]

theorem head_filtered_released_at {rels : List Release} {p : Release → Bool}
    {r : Release} (h : ((sortReleasesDesc rels).filter p).head? = some r) :
    p r = true ∧
      ∀ r' ∈ rels, p r' = true → r'.released_at ≤ r.released_at := by
  have hsorted : ((sortReleasesDesc rels).filter p).Sorted relDesc :=
    (sortReleasesDesc_sorted rels).filter p
  rcases hfl : (sortReleasesDesc rels).filter p with _ | ⟨a, t⟩
  · rw [hfl] at h
    simp at h
  · rw [hfl] at h
    simp only [List.head?_cons, Option.some.injEq] at h
    subst h
    constructor
    · have hmem : a ∈ (sortReleasesDesc rels).filter p := by
        rw [hfl]; exact List.mem_cons_self a t
      exact (List.mem_filter.mp hmem).2
    · intro r' hmem hp
      have h1 : r' ∈ (sortReleasesDesc rels).filter p :=
        List.mem_filter.mpr ⟨mem_sortReleasesDesc.mpr hmem, hp⟩
      rw [hfl] at h1
      rcases List.mem_cons.mp h1 with rfl | h2
      · exact Nat.le_refl _
      · exact List.rel_of_sorted_cons (hfl ▸ hsorted) r' h2

/-- C1.  When downgrade mode is off, a selected release's required host
version equals the target exactly; when no release is selected, the
filtered candidate list is empty. -/
theorem c1_no_downgrade_exact {cfg : Cfg} {fetch : String → FetchResult}
    {mod : ModEntry} {mi : ModInfos}
    (hdg : cfg.should_downgrade = false)
    (hmi : get_mod_infos cfg fetch mod = .ok (some mi)) :
    (∀ r, mi.same_version_releases.head? = some r →
        r.factorio_version = cfg.factorio_version) ∧
    (mi.same_version_releases.head? = none → mi.same_version_releases = []) := by
  obtain ⟨rels, _, _, hsvr⟩ := get_mod_infos_ok_some hmi
  constructor
  · intro r hr
    rw [hsvr] at hr
    have hmem : r ∈ (sortReleasesDesc rels).filter (releaseFilter cfg) := by
      rcases hfl : (sortReleasesDesc rels).filter (releaseFilter cfg) with _ | ⟨a, t⟩
      · rw [hfl] at hr; simp at hr
      · rw [hfl] at hr
        simp only [List.head?_cons, Option.some.injEq] at hr
        rw [hr]
        exact List.mem_cons_self r t
    have hp := (List.mem_filter.mp hmem).2
    rw [releaseFilter, hdg] at hp
    simpa using hp
  · intro hnone
    exact List.head?_eq_none_iff.mp hnone

/-- C2.  When downgrade mode is on, a selected release's required host
version is at most the target and no compatible release of the fetched
list is strictly more recent. -/
theorem c2_downgrade_latest_compatible {cfg : Cfg} {fetch : String → FetchResult}
    {mod : ModEntry} {mi : ModInfos} {rels : List Release} {r : Release}
    (hdg : cfg.should_downgrade = true)
    (hfetch : fetch mod.name = .ok ⟨some rels⟩)
    (hmi : get_mod_infos cfg fetch mod = .ok (some mi))
    (hsel : mi.same_version_releases.head? = some r) :
    FVersion.le r.factorio_version cfg.factorio_version = true ∧
    ∀ r' ∈ rels, FVersion.le r'.factorio_version cfg.factorio_version = true →
      r'.released_at ≤ r.released_at := by
  obtain ⟨rels', hf', _, hsvr⟩ := get_mod_infos_ok_some hmi
  rw [hfetch] at hf'
  simp only [FetchResult.ok.injEq, ApiBody.mk.injEq, Option.some.injEq] at hf'
  subst hf'
  rw [hsvr] at hsel
  have hhead := head_filtered_released_at hsel
  constructor
  · have h1 := hhead.1
    rw [releaseFilter, hdg] at h1
    simpa using h1
  · intro r' hmem hle
    refine hhead.2 r' hmem ?_
    rw [releaseFilter, hdg]
    simpa using hle

/-! ### Concrete fixtures (the spec's scenario: a 0.18 release at time 1 and
a 1.0 release at time 2) -/

def relA : Release :=
  { file_name := "mod_1.0.zip", download_url := "/d/1", sha1 := "aa",
    version := "1.0", factorio_version := ⟨0, 18⟩, released_at := 1 }

def relB : Release :=
  { file_name := "mod_2.0.zip", download_url := "/d/2", sha1 := "bb",
    version := "2.0", factorio_version := ⟨1, 0⟩, released_at := 2 }

def fetchAB : String → FetchResult := fun _ => .ok ⟨some [relA, relB]⟩

def modFoo : ModEntry := ⟨"foo", true⟩

def cfgExact : Cfg :=
  { dry_run := false, should_downgrade := false,
    factorio_version := ⟨1, 0⟩, should_reload := false }

def cfgDown : Cfg :=
  { dry_run := false, should_downgrade := true,
    factorio_version := ⟨1, 1⟩, should_reload := false }

def miExact : ModInfos :=
  { name := "foo", enabled := true, releases := [relB, relA],
    same_version_releases := [relB] }

def miDown : ModInfos :=
  { name := "foo", enabled := true, releases := [relB, relA],
    same_version_releases := [relB, relA] }

/-- Witness for C1: target 1.0, downgrade off, only the 1.0 release is kept
and selected. -/
theorem c1_no_downgrade_exact_witness :
    (∀ r, miExact.same_version_releases.head? = some r →
        r.factorio_version = cfgExact.factorio_version) ∧
    (miExact.same_version_releases.head? = none →
        miExact.same_version_releases = []) :=
  @c1_no_downgrade_exact cfgExact fetchAB modFoo miExact rfl rfl

/-- Witness for C2: target 1.1, downgrade on, the most recent compatible
release (the 1.0 one, time 2) is selected. -/
theorem c2_downgrade_latest_compatible_witness :
    FVersion.le relB.factorio_version cfgDown.factorio_version = true ∧
    ∀ r' ∈ [relA, relB],
      FVersion.le r'.factorio_version cfgDown.factorio_version = true →
        r'.released_at ≤ relB.released_at :=
  @c2_downgrade_latest_compatible cfgDown fetchAB modFoo miDown [relA, relB] relB
    rfl rfl rfl rfl

/-! ### Lemmas about the file-system model -/

theorem find?_filterErase (fs : FileSys) (n m : String) :
    ((fs.filter (fun p => p.1 != n)).find? (fun p => p.1 == m)) =
      if m = n then none else fs.find? (fun p => p.1 == m) := by
  induction fs with
  | nil => simp
  | cons p t ih =>
    by_cases hpn : p.1 = n
    · have hb : (p.1 != n) = false := by simp [hpn]
      by_cases hmn : m = n
      · simp [List.filter_cons, hb, ih, hmn]
      · have hpm : (p.1 == m) = false := by
          simp only [beq_eq_false_iff_ne, ne_eq, hpn]
          exact fun h => hmn h.symm
        simp [List.filter_cons, hb, List.find?, hpm, ih, hmn]
    · have hb : (p.1 != n) = true := by simp [bne_iff_ne, hpn]
      by_cases hpm : p.1 = m
      · have hmn : ¬m = n := fun h => hpn (by rw [hpm, h])
        have hbm : (p.1 == m) = true := by simp [hpm]
        simp [List.filter_cons, hb, List.find?, hbm, hmn]
      · have hbm : (p.1 == m) = false := by simp [hpm]
        simp [List.filter_cons, hb, List.find?, hbm, ih]

theorem fsLookup_fsErase (fs : FileSys) (n m : String) :
    fsLookup (fsErase fs n) m = if m = n then none else fsLookup fs m := by
  unfold fsLookup fsErase
  rw [find?_filterErase]
  by_cases hmn : m = n <;> simp [hmn]

theorem fsLookup_fsWrite (fs : FileSys) (n m : String) (c : List Nat) :
    fsLookup (fsWrite fs n c) m = if m = n then some c else fsLookup fs m := by
  by_cases hmn : m = n
  · simp [fsWrite, fsLookup, List.find?, hmn]
  · have h1 : (n == m) = false := by
      simp only [beq_eq_false_iff_ne, ne_eq]
      exact fun h => hmn (h ▸ rfl)
    simp only [fsWrite, fsLookup, List.find?, h1]
    have := fsLookup_fsErase fs n m
    simp only [fsLookup] at this
    rw [this]
    simp [hmn]

theorem remove_file_fields (cfg : Cfg) (n : String) (st : St) :
    (remove_file cfg n st).manifest = st.manifest ∧
    (remove_file cfg n st).has_to_reload = st.has_to_reload ∧
    (remove_file cfg n st).restarted = st.restarted := by
  unfold remove_file
  split
  · split <;> exact ⟨rfl, rfl, rfl⟩
  · exact ⟨rfl, rfl, rfl⟩

theorem fsLookup_remove_file (cfg : Cfg) (hdry : cfg.dry_run = false)
    (n m : String) (st : St) :
    fsLookup (remove_file cfg n st).files m =
      if m = n then none else fsLookup st.files m := by
  unfold remove_file
  rcases hl : fsLookup st.files n with _ | c
  · dsimp only
    by_cases hmn : m = n
    · rw [if_pos hmn, hmn]
      exact hl
    · rw [if_neg hmn]
  · dsimp only
    rw [hdry]
    simp only [Bool.false_eq_true, if_false]
    exact fsLookup_fsErase st.files n m

theorem fsLookup_remove_file_other (cfg : Cfg) (n m : String) (st : St)
    (hnm : m ≠ n) :
    fsLookup (remove_file cfg n st).files m = fsLookup st.files m := by
  unfold remove_file
  split
  · split
    · rfl
    · simp [fsLookup_fsErase, hnm]
  · rfl

theorem removeAll_cons (cfg : Cfg) (r : Release) (t : List Release) (st : St) :
    removeAll cfg (r :: t) st = removeAll cfg t (remove_file cfg r.file_name st) :=
  rfl

theorem removeAll_fields (cfg : Cfg) (L : List Release) (st : St) :
    (removeAll cfg L st).manifest = st.manifest ∧
    (removeAll cfg L st).has_to_reload = st.has_to_reload ∧
    (removeAll cfg L st).restarted = st.restarted := by
  induction L generalizing st with
  | nil => exact ⟨rfl, rfl, rfl⟩
  | cons r t ih =>
    rw [removeAll_cons]
    have h1 := remove_file_fields cfg r.file_name st
    have h2 := ih (remove_file cfg r.file_name st)
    exact ⟨h2.1.trans h1.1, h2.2.1.trans h1.2.1, h2.2.2.trans h1.2.2⟩

theorem fsLookup_removeAll (cfg : Cfg) (hdry : cfg.dry_run = false)
    (L : List Release) (st : St) (m : String) :
    fsLookup (removeAll cfg L st).files m =
      if ∃ r ∈ L, r.file_name = m then none else fsLookup st.files m := by
  induction L generalizing st with
  | nil => simp [removeAll]
  | cons r t ih =>
    rw [removeAll_cons, ih]
    by_cases hex : ∃ r' ∈ t, r'.file_name = m
    · rw [if_pos hex, if_pos]
      obtain ⟨r', hr', hm⟩ := hex
      exact ⟨r', List.mem_cons_of_mem r hr', hm⟩
    · rw [if_neg hex, fsLookup_remove_file cfg hdry]
      by_cases hrm : m = r.file_name
      · rw [if_pos hrm, if_pos ⟨r, List.mem_cons_self r t, hrm.symm⟩]
      · rw [if_neg hrm, if_neg]
        rintro ⟨r', hr', hm⟩
        rcases List.mem_cons.mp hr' with rfl | hmem
        · exact hrm hm.symm
        · exact hex ⟨r', hmem, hm⟩

theorem fsLookup_removeAll_other (cfg : Cfg) (L : List Release) (st : St)
    (m : String) (h : ∀ r ∈ L, r.file_name ≠ m) :
    fsLookup (removeAll cfg L st).files m = fsLookup st.files m := by
  induction L generalizing st with
  | nil => rfl
  | cons r t ih =>
    rw [removeAll_cons, ih _ (fun r' hr' => h r' (List.mem_cons_of_mem r hr'))]
    exact fsLookup_remove_file_other cfg _ _ _
      (fun hm => h r (List.mem_cons_self r t) hm.symm)

theorem write_mods_list_fields (cfg : Cfg) (L : List ModEntry) (st : St) :
    (write_mods_list cfg L st).files = st.files ∧
    (write_mods_list cfg L st).has_to_reload = st.has_to_reload ∧
    (write_mods_list cfg L st).restarted = st.restarted := by
  unfold write_mods_list
  split <;> exact ⟨rfl, rfl, rfl⟩

theorem write_mods_list_manifest (cfg : Cfg) (hdry : cfg.dry_run = false)
    (L : List ModEntry) (st : St) :
    (write_mods_list cfg L st).manifest = L := by
  unfold write_mods_list
  rw [hdry]
  rfl

/-! ### The streaming sha1 read -/

theorem readBlocks_foldl (bs acc : List Nat) :
    (readBlocks bs).foldl (fun a b => a ++ b) acc = acc ++ bs := by
  by_cases h : bs = []
  · subst h
    rw [readBlocks]
    simp
  · rw [readBlocks]
    simp only [h, dite_false, List.foldl_cons]
    rw [readBlocks_foldl (bs.drop 65536) (acc ++ bs.take 65536)]
    rw [List.append_assoc, List.take_append_drop]
termination_by bs.length
decreasing_by
  simp only [List.length_drop]
  exact Nat.sub_lt (List.length_pos.mpr h) (by decide)

/-- Hashing the file through 65536-byte read blocks yields the hash of the
whole content: the blocks concatenate back to the file. -/
theorem get_file_sha1_eq (hash : List Nat → String) (content : List Nat) :
    get_file_sha1 hash content = hash content := by
  unfold get_file_sha1
  rw [readBlocks_foldl]
  rfl

theorem check_file_and_sha_some {hash : List Nat → String} {fs : FileSys}
    {p s : String} {c : List Nat} (h : fsLookup fs p = some c) :
    check_file_and_sha hash fs p s = (s == hash c) := by
  unfold check_file_and_sha
  simp only [h, get_file_sha1_eq]

theorem check_file_and_sha_found {hash : List Nat → String} {fs : FileSys}
    {p s : String} (h : check_file_and_sha hash fs p s = true) :
    fsLookup fs p ≠ none := by
  unfold check_file_and_sha at h
  intro hnone
  rw [hnone] at h
  simp at h

/-- C4.  Streaming the file in 65536-byte blocks hashes exactly the file's
content; and when the resolved release's published sha1 matches the local
file's digest, both the update step and the install operation skip the
download: the result state is exactly the pre-download state, the local
file is untouched, and `has_to_reload` keeps its previous value. -/
theorem c4_sha_match_skip :
    (∀ (hash : List Nat → String) (content : List Nat),
        get_file_sha1 hash content = hash content) ∧
    (∀ (cfg : Cfg) (env : Env) (hash : List Nat → String) (mod : ModEntry)
        (st : St) (mi : ModInfos) (selected : Release) (rest : List Release),
        get_mod_infos cfg env.fetch mod = .ok (some mi) →
        mi.same_version_releases = selected :: rest →
        check_file_and_sha hash (deleteSuperseded cfg mi selected st).files
          selected.file_name selected.sha1 = true →
        update_mod_step cfg env hash false mod st =
          .ok (deleteSuperseded cfg mi selected st) ∧
        (deleteSuperseded cfg mi selected st).has_to_reload = st.has_to_reload ∧
        fsLookup (deleteSuperseded cfg mi selected st).files selected.file_name =
          fsLookup st.files selected.file_name) ∧
    (∀ (cfg : Cfg) (env : Env) (hash : List Nat → String) (mod_name : String)
        (st : St) (mi : ModInfos) (selected : Release) (rest : List Release),
        get_mod_infos cfg env.fetch ⟨mod_name, true⟩ = .ok (some mi) →
        mi.same_version_releases = selected :: rest →
        check_file_and_sha hash st.files selected.file_name selected.sha1 = true →
        install_mod cfg env hash mod_name st =
          .ok (write_mods_list cfg (st.manifest ++ [⟨mod_name, true⟩]) st) ∧
        (write_mods_list cfg (st.manifest ++ [⟨mod_name, true⟩]) st).files =
          st.files ∧
        (write_mods_list cfg (st.manifest ++ [⟨mod_name, true⟩]) st).has_to_reload =
          st.has_to_reload) := by
  refine ⟨get_file_sha1_eq, ?_, ?_⟩
  · intro cfg env hash mod st mi selected rest hmi hsel hchk
    refine ⟨?_, (removeAll_fields cfg _ st).2.1, ?_⟩
    · unfold update_mod_step
      rw [hmi]
      simp only [Bool.false_and, Bool.false_eq_true, if_false]
      rw [hsel]
      simp only [hchk, if_true]
    · refine fsLookup_removeAll_other cfg _ st selected.file_name ?_
      intro r hr
      have := (List.mem_filter.mp hr).2
      simpa [bne_iff_ne] using this
  · intro cfg env hash mod_name st mi selected rest hmi hsel hchk
    have hfiles := (write_mods_list_fields cfg (st.manifest ++ [⟨mod_name, true⟩]) st).1
    refine ⟨?_, hfiles, (write_mods_list_fields cfg _ st).2.1⟩
    unfold install_mod
    simp only [hmi, hsel, read_mods_list, Bool.false_eq_true, if_false]
    rw [hfiles, hchk]
    simp only [if_true]

/-- A concrete digest function for witnesses: content `[7]` hashes to
relB's published sha1. -/
def hashW : List Nat → String := fun c => if c = [7] then "bb" else "zz"

def envW : Env := ⟨fetchAB, fun _ => ⟨"application/zip", [7]⟩⟩

def st4 : St :=
  { files := [("mod_2.0.zip", [7]), ("mod_1.0.zip", [9])],
    manifest := [⟨"base", true⟩], has_to_reload := false, restarted := false }

/-- Witness for C4: the resolved release's file is on disk with a matching
digest; the update step and the install both skip the download. -/
theorem c4_sha_match_skip_witness :
    get_file_sha1 hashW [7] = hashW [7] ∧
    (update_mod_step cfgExact envW hashW false modFoo st4 =
        .ok (deleteSuperseded cfgExact miExact relB st4) ∧
      (deleteSuperseded cfgExact miExact relB st4).has_to_reload = st4.has_to_reload ∧
      fsLookup (deleteSuperseded cfgExact miExact relB st4).files relB.file_name =
        fsLookup st4.files relB.file_name) ∧
    (install_mod cfgExact envW hashW "foo" st4 =
        .ok (write_mods_list cfgExact (st4.manifest ++ [⟨"foo", true⟩]) st4) ∧
      (write_mods_list cfgExact (st4.manifest ++ [⟨"foo", true⟩]) st4).files =
        st4.files ∧
      (write_mods_list cfgExact (st4.manifest ++ [⟨"foo", true⟩]) st4).has_to_reload =
        st4.has_to_reload) :=
  ⟨c4_sha_match_skip.1 hashW [7],
   c4_sha_match_skip.2.1 cfgExact envW hashW modFoo st4 miExact relB [] rfl rfl
     (by rw [check_file_and_sha_some
         (show fsLookup (deleteSuperseded cfgExact miExact relB st4).files
            relB.file_name = some [7] from rfl)]; rfl),
   c4_sha_match_skip.2.2 cfgExact envW hashW "foo" st4 miExact relB [] rfl rfl
     (by rw [check_file_and_sha_some
         (show fsLookup st4.files relB.file_name = some [7] from rfl)]; rfl)⟩

/-- C5 (amended).  In the update operation, once a release is resolved,
every other known release file of the mod that is on disk is deleted by
exact file-name comparison, and the resolved release's file is the one
artifact present afterwards. -/
theorem c5_update_deletes_superseded (cfg : Cfg) (env : Env)
    (hash : List Nat → String) (mod : ModEntry) (st st' : St) (mi : ModInfos)
    (selected : Release) (rest : List Release)
    (hdry : cfg.dry_run = false)
    (hmi : get_mod_infos cfg env.fetch mod = .ok (some mi))
    (hsel : mi.same_version_releases = selected :: rest)
    (hok : update_mod_step cfg env hash false mod st = .ok st') :
    (∀ r ∈ mi.releases, r.file_name ≠ selected.file_name →
        fsLookup st'.files r.file_name = none) ∧
    fsLookup st'.files selected.file_name ≠ none := by
  unfold update_mod_step at hok
  simp only [hmi, hsel, Bool.false_and, Bool.false_eq_true, if_false] at hok
  by_cases hchk : check_file_and_sha hash
      (deleteSuperseded cfg mi selected st).files selected.file_name
      selected.sha1 = true
  · rw [hchk] at hok
    simp only [if_true] at hok
    have hst : st' = deleteSuperseded cfg mi selected st := (Except.ok.inj hok).symm
    subst hst
    constructor
    · intro r hr hne
      rw [deleteSuperseded, fsLookup_removeAll cfg hdry, if_pos]
      exact ⟨r, List.mem_filter.mpr ⟨hr, by simpa [bne_iff_ne] using hne⟩, rfl⟩
    · exact check_file_and_sha_found hchk
  · simp only [Bool.not_eq_true] at hchk
    rw [hchk] at hok
    simp only [Bool.false_eq_true, if_false] at hok
    unfold download_mod at hok
    rw [hdry] at hok
    simp only [Bool.false_eq_true, if_false] at hok
    by_cases hct : ((env.net selected.download_url).content_type !=
        "application/zip") = true
    · rw [hct] at hok
      simp at hok
    · simp only [Bool.not_eq_true] at hct
      rw [hct] at hok
      simp only [Bool.false_eq_true, if_false] at hok
      have hst : st' =
          { deleteSuperseded cfg mi selected st with
            files := fsWrite (deleteSuperseded cfg mi selected st).files
              selected.file_name (env.net selected.download_url).content,
            has_to_reload := true } := (Except.ok.inj hok).symm
      subst hst
      constructor
      · intro r hr hne
        simp only
        rw [fsLookup_fsWrite]
        rw [if_neg hne]
        rw [deleteSuperseded, fsLookup_removeAll cfg hdry, if_pos]
        exact ⟨r, List.mem_filter.mpr ⟨hr, by simpa [bne_iff_ne] using hne⟩, rfl⟩
      · simp only
        rw [fsLookup_fsWrite, if_pos rfl]
        simp

def st5 : St :=
  { files := [("mod_1.0.zip", [9])], manifest := [⟨"base", true⟩],
    has_to_reload := false, restarted := false }

/-- Counterexample to C5 as stated: an install that resolves the newer
release downloads it but leaves the superseded release file
`mod_1.0.zip` on disk — `install_mod` performs no superseded-file
deletion. -/
theorem c5_install_keeps_old_file :
    install_mod cfgExact envW hashW "foo" st5 =
      .ok { files := [("mod_2.0.zip", [7]), ("mod_1.0.zip", [9])],
            manifest := [⟨"base", true⟩, ⟨"foo", true⟩],
            has_to_reload := true, restarted := false } ∧
    fsLookup (resSt (install_mod cfgExact envW hashW "foo" st5)).files
      "mod_1.0.zip" = some [9] :=
  ⟨rfl, rfl⟩

def st5' : St :=
  { files := [("mod_2.0.zip", [7])], manifest := [⟨"base", true⟩],
    has_to_reload := true, restarted := false }

/-- Witness for the amended C5: updating from a state holding only the old
release file deletes it and leaves exactly the resolved file. -/
theorem c5_update_deletes_superseded_witness :
    (∀ r ∈ miExact.releases, r.file_name ≠ relB.file_name →
        fsLookup st5'.files r.file_name = none) ∧
    fsLookup st5'.files relB.file_name ≠ none :=
  c5_update_deletes_superseded cfgExact envW hashW modFoo st5 st5' miExact relB []
    rfl rfl rfl rfl

/-- C6.  A remove run that resolved the mod's metadata deletes the file of
every known release and drops every manifest entry carrying the mod's
name. -/
theorem c6_remove_mod_deletes_all (cfg : Cfg) (env : Env) (mod_name : String)
    (st st' : St) (mi : ModInfos)
    (hdry : cfg.dry_run = false)
    (hmi : get_mod_infos cfg env.fetch ⟨mod_name, true⟩ = .ok (some mi))
    (hok : remove_mod cfg env mod_name st = .ok st') :
    (∀ r ∈ mi.releases, fsLookup st'.files r.file_name = none) ∧
    st'.manifest = st.manifest.filter (fun m => m.name != mod_name) ∧
    ∀ e ∈ st'.manifest, e.name ≠ mod_name := by
  unfold remove_mod at hok
  simp only [hmi, read_mods_list, Bool.false_eq_true, if_false] at hok
  have hst := (Except.ok.inj hok).symm
  subst hst
  refine ⟨?_, ?_, ?_⟩
  · intro r hr
    have h1 : (write_mods_list cfg
        ((removeAll cfg mi.releases st).manifest.filter (fun m => m.name != mod_name))
        (removeAll cfg mi.releases st)).files = (removeAll cfg mi.releases st).files :=
      (write_mods_list_fields cfg _ _).1
    simp only [h1]
    rw [fsLookup_removeAll cfg hdry, if_pos ⟨r, hr, rfl⟩]
  · simp only [(removeAll_fields cfg mi.releases st).1]
    exact write_mods_list_manifest cfg hdry _ _
  · intro e he
    have h2 := write_mods_list_manifest cfg hdry
      ((removeAll cfg mi.releases st).manifest.filter (fun m => m.name != mod_name))
      (removeAll cfg mi.releases st)
    simp only [h2] at he
    have := (List.mem_filter.mp he).2
    simpa [bne_iff_ne] using this

def st6 : St :=
  { files := [("mod_1.0.zip", [9]), ("mod_2.0.zip", [7])],
    manifest := [⟨"base", true⟩, ⟨"foo", true⟩, ⟨"foo", false⟩],
    has_to_reload := false, restarted := false }

def st6' : St :=
  { files := [], manifest := [⟨"base", true⟩],
    has_to_reload := true, restarted := false }

/-- Witness for C6: two stale release files on disk and a duplicated
manifest entry; removal deletes both files and both entries. -/
theorem c6_remove_mod_deletes_all_witness :
    (∀ r ∈ miExact.releases, fsLookup st6'.files r.file_name = none) ∧
    st6'.manifest = st6.manifest.filter (fun m => m.name != "foo") ∧
    ∀ e ∈ st6'.manifest, e.name ≠ "foo" :=
  c6_remove_mod_deletes_all cfgExact envW "foo" st6 st6' miExact rfl rfl rfl

/-- C7.  Outside dry-run, a response whose content type is not
`application/zip` makes `download_mod` abort the process with `exit(1)`
with the state exactly as it was: no file is written. -/
theorem c7_bad_content_type_aborts (cfg : Cfg) (env : Env)
    (file_path url : String) (st : St)
    (hdry : cfg.dry_run = false)
    (hct : (env.net url).content_type ≠ "application/zip") :
    download_mod cfg env file_path url st = .error (.exit1, st) := by
  unfold download_mod
  rw [hdry]
  simp only [Bool.false_eq_true, if_false]
  have hb : ((env.net url).content_type != "application/zip") = true := by
    simpa [bne_iff_ne] using hct
  rw [hb]
  simp

def envBad : Env := ⟨fetchAB, fun _ => ⟨"text/html", []⟩⟩

/-- Witness for C7: a `text/html` response aborts with the state intact. -/
theorem c7_bad_content_type_aborts_witness :
    download_mod cfgExact envBad "mod_2.0.zip" "/d/2" st5 = .error (.exit1, st5) :=
  c7_bad_content_type_aborts cfgExact envBad "mod_2.0.zip" "/d/2" st5 rfl
    (by decide)

/-! ### C3: per-mod failures are fatal in the code -/

def envFail : Env := ⟨fun _ => .httpError, fun _ => ⟨"application/zip", []⟩⟩

def envNoKey : Env := ⟨fun _ => .ok ⟨none⟩, fun _ => ⟨"application/zip", []⟩⟩

def st3 : St :=
  { files := [], manifest := [⟨"base", true⟩, ⟨"foo", true⟩],
    has_to_reload := false, restarted := false }

/-- C3 divergence, evaluated: a metadata fetch failure for the single mod
of an update run makes `update_mods` subscript `None` and abort with
`TypeError` instead of skipping; a response without a `releases` key aborts
update and install runs with `KeyError`. -/
theorem c3_per_mod_failure_is_fatal :
    update_mods cfgExact envFail hashW false st3 = .error (.typeError, st3) ∧
    update_mods cfgExact envNoKey hashW false st3 = .error (.keyError, st3) ∧
    install_mod cfgExact envNoKey hashW "foo" st3 = .error (.keyError, st3) :=
  ⟨rfl, rfl, rfl⟩

/-- C10.  Whenever `install_mod` resolves a release (outside dry-run), the
manifest on disk ends as the old manifest with the new entry appended — in
every branch, including the one where the sha1 matches and the download is
skipped. -/
theorem c10_manifest_written_before_hash_check (cfg : Cfg) (env : Env)
    (hash : List Nat → String) (mod_name : String) (st : St) (mi : ModInfos)
    (selected : Release) (rest : List Release)
    (hdry : cfg.dry_run = false)
    (hmi : get_mod_infos cfg env.fetch ⟨mod_name, true⟩ = .ok (some mi))
    (hsel : mi.same_version_releases = selected :: rest) :
    (resSt (install_mod cfg env hash mod_name st)).manifest =
      st.manifest ++ [⟨mod_name, true⟩] := by
  unfold install_mod
  simp only [hmi, hsel, read_mods_list, Bool.false_eq_true, if_false]
  have hman := write_mods_list_manifest cfg hdry (st.manifest ++ [⟨mod_name, true⟩]) st
  by_cases hchk : check_file_and_sha hash
      (write_mods_list cfg (st.manifest ++ [⟨mod_name, true⟩]) st).files
      selected.file_name selected.sha1 = true
  · rw [hchk]
    simp only [if_true, resSt]
    exact hman
  · simp only [Bool.not_eq_true] at hchk
    rw [hchk]
    simp only [Bool.false_eq_true, if_false]
    unfold download_mod
    rw [hdry]
    simp only [Bool.false_eq_true, if_false]
    by_cases hct : ((env.net selected.download_url).content_type !=
        "application/zip") = true
    · rw [hct]
      simp only [if_true, resSt]
      exact hman
    · simp only [Bool.not_eq_true] at hct
      rw [hct]
      simp only [Bool.false_eq_true, if_false, resSt]
      exact hman

/-- Witness for C10: installing over a state that does not hold the file
appends the entry. -/
theorem c10_manifest_written_before_hash_check_witness :
    (resSt (install_mod cfgExact envW hashW "foo" st5)).manifest =
      st5.manifest ++ [⟨"foo", true⟩] :=
  c10_manifest_written_before_hash_check cfgExact envW hashW "foo" st5 miExact
    relB [] rfl rfl rfl

/-! ### Dry-run: no mutation reaches the mods directory, the manifest, or
the service -/

/-- The on-disk and service-visible part of the state is preserved from
`st` to `st'` (the in-memory `has_to_reload` flag may differ). -/
def DiskPres (st st' : St) : Prop :=
  st'.files = st.files ∧ st'.manifest = st.manifest ∧ st'.restarted = st.restarted

theorem diskPres_refl (st : St) : DiskPres st st := ⟨rfl, rfl, rfl⟩

theorem diskPres_trans {a b c : St} (h1 : DiskPres a b) (h2 : DiskPres b c) :
    DiskPres a c :=
  ⟨h2.1.trans h1.1, h2.2.1.trans h1.2.1, h2.2.2.trans h1.2.2⟩

theorem remove_file_dry (cfg : Cfg) (hdry : cfg.dry_run = true) (n : String)
    (st : St) : remove_file cfg n st = st := by
  unfold remove_file
  split
  · rw [hdry]
    simp
  · rfl

theorem removeAll_dry (cfg : Cfg) (hdry : cfg.dry_run = true)
    (L : List Release) (st : St) : removeAll cfg L st = st := by
  induction L generalizing st with
  | nil => rfl
  | cons r t ih => rw [removeAll_cons, remove_file_dry cfg hdry, ih]

theorem write_mods_list_dry (cfg : Cfg) (hdry : cfg.dry_run = true)
    (L : List ModEntry) (st : St) : write_mods_list cfg L st = st := by
  unfold write_mods_list
  rw [hdry]
  simp

theorem download_mod_dry (cfg : Cfg) (hdry : cfg.dry_run = true) (env : Env)
    (p u : String) (st : St) : download_mod cfg env p u st = .ok st := by
  unfold download_mod
  rw [hdry]
  simp

theorem update_mod_step_dry (cfg : Cfg) (hdry : cfg.dry_run = true) (env : Env)
    (hash : List Nat → String) (eo : Bool) (mod : ModEntry) (st : St) :
    DiskPres st (resSt (update_mod_step cfg env hash eo mod st)) := by
  unfold update_mod_step
  rcases get_mod_infos cfg env.fetch mod with e | mio
  · exact diskPres_refl st
  · rcases mio with _ | mi
    · exact diskPres_refl st
    · dsimp only
      by_cases he : (eo && !mi.enabled) = true
      · rw [he]
        simp only [if_true]
        exact diskPres_refl st
      · simp only [Bool.not_eq_true] at he
        rw [he]
        simp only [Bool.false_eq_true, if_false]
        rcases mi.same_version_releases with _ | ⟨selected, t⟩
        · exact diskPres_refl st
        · dsimp only
          rw [deleteSuperseded, removeAll_dry cfg hdry, download_mod_dry cfg hdry]
          by_cases hchk : check_file_and_sha hash st.files selected.file_name
              selected.sha1 = true
          · rw [hchk]
            simp only [if_true]
            exact diskPres_refl st
          · simp only [Bool.not_eq_true] at hchk
            rw [hchk]
            simp only [Bool.false_eq_true, if_false]
            exact ⟨rfl, rfl, rfl⟩

theorem update_mods_loop_dry (cfg : Cfg) (hdry : cfg.dry_run = true) (env : Env)
    (hash : List Nat → String) (eo : Bool) (mods : List ModEntry) (st : St) :
    DiskPres st (resSt (update_mods_loop cfg env hash eo mods st)) := by
  induction mods generalizing st with
  | nil => exact diskPres_refl st
  | cons mod rest ih =>
    unfold update_mods_loop
    have h1 := update_mod_step_dry cfg hdry env hash eo mod st
    rcases h : update_mod_step cfg env hash eo mod st with e | st1
    · rw [h] at h1
      exact h1
    · rw [h] at h1
      exact diskPres_trans h1 (ih st1)

theorem update_mods_dry (cfg : Cfg) (hdry : cfg.dry_run = true) (env : Env)
    (hash : List Nat → String) (eo : Bool) (st : St) :
    DiskPres st (resSt (update_mods cfg env hash eo st)) := by
  unfold update_mods
  rcases read_mods_list true st with e | mods
  · exact diskPres_refl st
  · exact update_mods_loop_dry cfg hdry env hash eo mods st

theorem install_mod_dry (cfg : Cfg) (hdry : cfg.dry_run = true) (env : Env)
    (hash : List Nat → String) (name : String) (st : St) :
    DiskPres st (resSt (install_mod cfg env hash name st)) := by
  unfold install_mod
  dsimp only
  rcases get_mod_infos cfg env.fetch ⟨name, true⟩ with e | mio
  · exact diskPres_refl st
  · rcases mio with _ | mi
    · exact diskPres_refl st
    · dsimp only
      rcases mi.same_version_releases with _ | ⟨selected, t⟩
      · exact diskPres_refl st
      · dsimp only
        rcases read_mods_list false st with e | mods
        · exact diskPres_refl st
        · dsimp only
          rw [write_mods_list_dry cfg hdry, download_mod_dry cfg hdry]
          by_cases hchk : check_file_and_sha hash st.files selected.file_name
              selected.sha1 = true
          · rw [hchk]
            simp only [if_true]
            exact diskPres_refl st
          · simp only [Bool.not_eq_true] at hchk
            rw [hchk]
            simp only [Bool.false_eq_true, if_false]
            exact ⟨rfl, rfl, rfl⟩

theorem remove_mod_dry (cfg : Cfg) (hdry : cfg.dry_run = true) (env : Env)
    (name : String) (st : St) :
    DiskPres st (resSt (remove_mod cfg env name st)) := by
  unfold remove_mod
  dsimp only
  rcases get_mod_infos cfg env.fetch ⟨name, true⟩ with e | mio
  · exact diskPres_refl st
  · rcases mio with _ | mi
    · exact diskPres_refl st
    · dsimp only
      rw [removeAll_dry cfg hdry]
      rcases read_mods_list false st with e | mods
      · exact diskPres_refl st
      · dsimp only
        rw [write_mods_list_dry cfg hdry]
        exact ⟨rfl, rfl, rfl⟩

theorem update_state_mods_dry (cfg : Cfg) (hdry : cfg.dry_run = true)
    (names : List String) (b : Bool) (st : St) :
    DiskPres st (resSt (update_state_mods cfg names b st)) := by
  unfold update_state_mods
  rcases read_mods_list false st with e | mods
  · exact diskPres_refl st
  · dsimp only
    rw [write_mods_list_dry cfg hdry]
    exact ⟨rfl, rfl, rfl⟩

theorem reload_block_dry (cfg : Cfg) (hdry : cfg.dry_run = true) (st : St) :
    reload_block cfg st = st := by
  unfold reload_block
  rw [hdry]
  split <;> simp

theorem diskPres_andThen {st : St} {m : Except (PyErr × St) St}
    {f : St → Except (PyErr × St) St}
    (h1 : DiskPres st (resSt m)) (h2 : ∀ s, DiskPres s (resSt (f s))) :
    DiskPres st (resSt (andThen m f)) := by
  cases m with
  | error e => exact h1
  | ok s => exact diskPres_trans h1 (h2 s)

theorem run_actions_dry (cfg : Cfg) (hdry : cfg.dry_run = true) (env : Env)
    (hash : List Nat → String) (args : Args) (st : St) :
    DiskPres st (resSt (run_actions cfg env hash args st)) := by
  unfold run_actions
  refine diskPres_andThen ?_ (fun s1 => ?_)
  · rcases args.list_enable_mods with _ | names
    · exact diskPres_refl st
    · exact update_state_mods_dry cfg hdry names true st
  refine diskPres_andThen ?_ (fun s2 => ?_)
  · rcases args.list_disable_mods with _ | names
    · exact diskPres_refl s1
    · exact update_state_mods_dry cfg hdry names false s1
  by_cases hlm : args.list_mods = true
  · rw [hlm]
    simp only [if_true]
    rcases read_mods_list true s2 with e | mods
    · exact diskPres_refl s2
    · exact diskPres_refl s2
  · simp only [Bool.not_eq_true] at hlm
    rw [hlm]
    simp only [Bool.false_eq_true, if_false]
    refine diskPres_andThen ?_ (fun s3 => ?_)
    · by_cases hup : args.should_update = true
      · rw [hup]
        simp only [if_true]
        exact update_mods_dry cfg hdry env hash args.enabled_only s2
      · simp only [Bool.not_eq_true] at hup
        rw [hup]
        simp only [Bool.false_eq_true, if_false]
        exact diskPres_refl s2
    refine diskPres_andThen ?_ (fun s4 => ?_)
    · rcases args.mod_name_to_install with _ | name
      · exact diskPres_refl s3
      · exact install_mod_dry cfg hdry env hash name s3
    refine diskPres_andThen ?_ (fun s5 => ?_)
    · rcases args.remove_mod_name with _ | name
      · exact diskPres_refl s4
      · exact remove_mod_dry cfg hdry env name s4
    rw [reload_block_dry cfg hdry]
    exact diskPres_refl s5

/-- C8.  In dry-run mode a whole run — whatever it was asked to do and
whether it finished or aborted — leaves the mods directory and the
manifest exactly as they were and never restarts the service. -/
theorem c8_dry_run_no_disk_change (cenv : ConfigEnv) (cfg : Cfg) (env : Env)
    (hash : List Nat → String) (args : Args) (st : St)
    (hdry : cfg.dry_run = true) :
    (resSt (main_run cenv cfg env hash args st)).files = st.files ∧
    (resSt (main_run cenv cfg env hash args st)).manifest = st.manifest ∧
    (resSt (main_run cenv cfg env hash args st)).restarted = st.restarted := by
  unfold main_run
  rcases load_config cenv with e | b
  · exact diskPres_refl st
  · rcases b with _ | _
    · exact diskPres_refl st
    · exact run_actions_dry cfg hdry env hash args st

def cfgDry : Cfg :=
  { dry_run := true, should_downgrade := false,
    factorio_version := ⟨1, 0⟩, should_reload := true }

def cenvOk : ConfigEnv :=
  { args_should_reload := true, cfg_should_reload := none,
    args_service_name := some "factorio", cfg_service_name := none,
    args_factorio_path := some "/opt/factorio", cfg_factorio_path := none,
    mods_folder_path_exists := true, mods_folder_path_isdir := true,
    mods_list_path_exists := true, mods_list_path_isfile := true,
    args_username := some "bob", cfg_username := none,
    args_token := some "tok", cfg_token := none,
    args_should_update := true, args_mod_name_to_install := some "foo" }

def argsAll : Args :=
  { list_enable_mods := some ["foo"], list_disable_mods := some ["bar"],
    list_mods := false, should_update := true, enabled_only := false,
    mod_name_to_install := some "foo", remove_mod_name := some "foo" }

/-- Witness for C8: a dry run that enables, disables, updates, installs and
removes leaves files, manifest and service untouched. -/
theorem c8_dry_run_no_disk_change_witness :
    (resSt (main_run cenvOk cfgDry envW hashW argsAll st6)).files = st6.files ∧
    (resSt (main_run cenvOk cfgDry envW hashW argsAll st6)).manifest =
      st6.manifest ∧
    (resSt (main_run cenvOk cfgDry envW hashW argsAll st6)).restarted =
      st6.restarted :=
  c8_dry_run_no_disk_change cenvOk cfgDry envW hashW argsAll st6 rfl

/-! ### C9: the credentials check never looks at the token -/

def cenv9 : ConfigEnv :=
  { args_should_reload := false, cfg_should_reload := none,
    args_service_name := none, cfg_service_name := none,
    args_factorio_path := some "/opt/factorio", cfg_factorio_path := none,
    mods_folder_path_exists := true, mods_folder_path_isdir := true,
    mods_list_path_exists := true, mods_list_path_isfile := true,
    args_username := some "bob", cfg_username := none,
    args_token := some "", cfg_token := none,
    args_should_update := true, args_mod_name_to_install := none }

def args9 : Args :=
  { list_enable_mods := none, list_disable_mods := none, list_mods := false,
    should_update := true, enabled_only := false,
    mod_name_to_install := none, remove_mod_name := none }

def st9 : St :=
  { files := [("mod_1.0.zip", [9])],
    manifest := [⟨"base", true⟩, ⟨"foo", true⟩],
    has_to_reload := false, restarted := false }

def env9 : Env := ⟨fetchAB, fun _ => ⟨"text/html", []⟩⟩

def st9' : St :=
  { files := [], manifest := [⟨"base", true⟩, ⟨"foo", true⟩],
    has_to_reload := false, restarted := false }

/-- C9 divergence, evaluated: an update run with a username but an empty
token passes `load_config` (line 385 checks the username twice and the
token never), then deletes the superseded file `mod_1.0.zip` before the
credential failure aborts the run at the download — mutating actions
happen on an invalid configuration. -/
theorem c9_missing_token_not_rejected :
    load_config cenv9 = .ok true ∧
    main_run cenv9 cfgExact env9 hashW args9 st9 = .error (.exit1, st9') ∧
    fsLookup st9.files "mod_1.0.zip" = some [9] ∧
    fsLookup st9'.files "mod_1.0.zip" = none :=
  ⟨rfl, rfl, rfl, rfl⟩

end ModsManager
